import Mathlib

/-!
Verification of the `argon2` password-hasher layer (`src/argon2/_password_hasher.py`)
against its natural-language specification.

Python byte strings and text strings are modelled as lists of natural numbers
(byte values / Unicode code points).  Python `int` is modelled as `Int`.
Fallible operations return `Except PyError`.  The external Argon2 primitive,
the text-codec machinery of the Python runtime and the OS random source are
modelled as explicit oracle arguments, so that theorems can quantify over them.
-/

/-- Python byte strings and text are modelled as lists of byte values / code points. -/
abbrev Bytes := List Nat

/-- Code points of an ASCII Lean string literal, used to write the byte-string
literals appearing in the source (`b"$argon2i$"` and friends). -/
def asciiOf (s : String) : Bytes := s.toList.map Char.toNat

/-- `argon2.low_level.Type`. Modelled from the spec: the Argon2 variant selector
{I, D, ID}; the `low_level` module is not under `src/`. -/
inductive ArgonType
  | d
  | i
  | id
deriving DecidableEq

/-- `argon2._utils.Parameters`. Modelled from the spec (§3): immutable value object
with value equality over every field; the `_utils` module is not under `src/`.
Field order follows the keyword construction in `PasswordHasher.__init__`. -/
structure Parameters where
  type : ArgonType
  version : Int
  salt_len : Int
  hash_len : Int
  time_cost : Int
  memory_cost : Int
  parallelism : Int
deriving DecidableEq

/-- Exception kinds raised by this layer.  Modelled from the spec (§7) and the
imports of the source file; the `exceptions` module is not under `src/`.
`typeError` is the Python builtin `TypeError` raised by `PasswordHasher.__init__`
on a wrong-typed argument — the kind the spec's §7 taxonomy names
`InvalidParameterError`.  `unicodeDecodeError` is the builtin raised by
`bytes.decode("ascii")` on non-ASCII bytes. -/
inductive PyError
  | typeError (msg : String)
  | unsupportedParams
  | invalidHash
  | verifyMismatch
  | verificationError
  | hashingError
  | unicodeDecodeError
deriving DecidableEq

/-- Modelled from the spec (§7): the `InvalidParameterError` error kind — a
wrong-typed or absent required field supplied to the configuration constructor.
In the source it is realized by the builtin `TypeError` raised at line 121 of
`_password_hasher.py`. -/
def invalidParameterKind (e : PyError) : Prop :=
  ∃ m, e = PyError.typeError m

/-- A dynamically typed Python value, as far as the constructor's type
validation can observe it. -/
inductive PyVal
  | int (n : Int)
  | str (s : String)
  | atype (t : ArgonType)
  | bytes (b : Bytes)
  | pyNone
deriving DecidableEq

/-- The Python classes `_check_types` compares against. -/
inductive PyType
  | int
  | str
  | atype
deriving DecidableEq

/-- Python `isinstance`, restricted to the classes used by the constructor. -/
def PyVal.isInst : PyVal → PyType → Bool
  | .int _, .int => true
  | .str _, .str => true
  | .atype _, .atype => true
  | _, _ => false

/-- `argon2._utils._check_types`. Modelled from the spec (§4.1: the constructor
"validates types"); the `_utils` module is not under `src/`.  Returns `none` when
every value is an instance of its expected class, otherwise an error message
naming the offending arguments. -/
def _check_types (args : List (String × PyVal × PyType)) : Option String :=
  let bad := args.filter (fun x => !(x.2.1.isInst x.2.2))
  if bad = [] then none
  else some (String.intercalate ", " (bad.map (fun x => x.1)))

/-- Process environment read by `is_wasm` (`sys.platform` and
`platform.machine()`), fixed once at process start (spec §6, §9). -/
structure SysEnv where
  platform : String
  machine : String

/-- `is_wasm` (src lines 22–26). -/
def is_wasm (env : SysEnv) : Bool :=
  env.platform == "emscripten" ||
    (env.machine == "wasm32" || env.machine == "wasm64")

/-- Modelled from the spec: `argon2.profiles.RFC_9106_LOW_MEMORY` (the `profiles`
module is not under `src/`); the field values are those of the spec's §8
scenario (`time_cost=3, memory_cost=65536, parallelism=4, hash_len=32,
salt_len=16`, variant ID, version 19). -/
def RFC_9106_LOW_MEMORY : Parameters :=
  { type := .id, version := 19, salt_len := 16, hash_len := 32,
    time_cost := 3, memory_cost := 65536, parallelism := 4 }

/-- `DEFAULT_RANDOM_SALT_LENGTH` (src line 29). -/
def DEFAULT_RANDOM_SALT_LENGTH : Int := RFC_9106_LOW_MEMORY.salt_len

/-- `DEFAULT_HASH_LENGTH` (src line 30). -/
def DEFAULT_HASH_LENGTH : Int := RFC_9106_LOW_MEMORY.hash_len

/-- `DEFAULT_TIME_COST` (src line 31). -/
def DEFAULT_TIME_COST : Int := RFC_9106_LOW_MEMORY.time_cost

/-- `DEFAULT_MEMORY_COST` (src line 32). -/
def DEFAULT_MEMORY_COST : Int := RFC_9106_LOW_MEMORY.memory_cost

/-- `DEFAULT_PARALLELISM` (src line 33): `1 if is_wasm() else
RFC_9106_LOW_MEMORY.parallelism`, evaluated against the process-start
environment. -/
def DEFAULT_PARALLELISM (env : SysEnv) : Int :=
  if is_wasm env then 1 else RFC_9106_LOW_MEMORY.parallelism

/-- A Python `str | bytes` argument; `str` values carry their code points. -/
inductive StrOrBytes
  | str (s : Bytes)
  | bytes (b : Bytes)
deriving DecidableEq

/-- The Python text-codec machinery behind `str.encode(encoding)`, as an oracle:
given an encoding name and the code points of a string, produce the encoded
bytes or the raised error. -/
abbrev EncOracle := String → Bytes → Except PyError Bytes

/-- `_ensure_bytes` (src lines 36–42): return `bytes` input unchanged, otherwise
encode the text using *encoding*. -/
def _ensure_bytes (enc : EncOracle) (s : StrOrBytes) (encoding : String) :
    Except PyError Bytes :=
  match s with
  | .bytes b => Except.ok b
  | .str t => enc encoding t

/-- Python `bytes.decode("ascii")`: identity on the values when all bytes are
ASCII, `UnicodeDecodeError` otherwise. -/
def asciiDecode (b : Bytes) : Except PyError Bytes :=
  if b.all (fun c => c < 128) then Except.ok b else Except.error .unicodeDecodeError

/-- `PasswordHasher`'s state (src lines 96–99): one `Parameters` plus a text
encoding name. -/
structure PasswordHasher where
  _parameters : Parameters
  encoding : String
deriving DecidableEq

/-- The seven keyword arguments of `PasswordHasher.__init__`, as dynamically
typed Python values. -/
structure InitArgs where
  time_cost : PyVal
  memory_cost : PyVal
  parallelism : PyVal
  hash_len : PyVal
  salt_len : PyVal
  encoding : PyVal
  type : PyVal
deriving DecidableEq

/-- The default argument values of `PasswordHasher.__init__` (src lines 101–109). -/
def defaultInitArgs (env : SysEnv) : InitArgs :=
  { time_cost := .int DEFAULT_TIME_COST,
    memory_cost := .int DEFAULT_MEMORY_COST,
    parallelism := .int (DEFAULT_PARALLELISM env),
    hash_len := .int DEFAULT_HASH_LENGTH,
    salt_len := .int DEFAULT_RANDOM_SALT_LENGTH,
    encoding := .str "utf-8",
    type := .atype .id }

/-- `PasswordHasher.__init__` (src lines 101–139): type-check the seven
arguments (raising the builtin `TypeError` on a failure), build the
`Parameters` with `version=19`, enforce the WASM parallelism rule, then store
the parameters and the encoding. -/
def PasswordHasher.init (env : SysEnv) (a : InitArgs) :
    Except PyError PasswordHasher :=
  match _check_types [("time_cost", a.time_cost, PyType.int),
      ("memory_cost", a.memory_cost, PyType.int),
      ("parallelism", a.parallelism, PyType.int),
      ("hash_len", a.hash_len, PyType.int),
      ("salt_len", a.salt_len, PyType.int),
      ("encoding", a.encoding, PyType.str),
      ("type", a.type, PyType.atype)] with
  | some e => Except.error (.typeError e)
  | none =>
    match a.time_cost, a.memory_cost, a.parallelism, a.hash_len, a.salt_len,
        a.encoding, a.type with
    | .int tc, .int mc, .int par, .int hl, .int sl, .str enc, .atype ty =>
      let params : Parameters :=
        { type := ty, version := 19, salt_len := sl, hash_len := hl,
          time_cost := tc, memory_cost := mc, parallelism := par }
      if is_wasm env ∧ par ≠ 1 then Except.error .unsupportedParams
      else Except.ok { _parameters := params, encoding := enc }
    | _, _, _, _, _, _, _ => Except.error (.typeError "")

/-- `PasswordHasher.from_parameters` (src lines 141–157): re-check the WASM
parallelism rule, construct a default instance via `cls()`, then overwrite its
`_parameters` with *params*. -/
def PasswordHasher.from_parameters (env : SysEnv) (params : Parameters) :
    Except PyError PasswordHasher :=
  if is_wasm env ∧ params.parallelism ≠ 1 then Except.error .unsupportedParams
  else (PasswordHasher.init env (defaultInitArgs env)).map
    (fun ph => { ph with _parameters := params })

/-- Property `PasswordHasher.time_cost` (src lines 159–161). -/
def PasswordHasher.time_cost (ph : PasswordHasher) : Int :=
  ph._parameters.time_cost

/-- Property `PasswordHasher.memory_cost` (src lines 163–165). -/
def PasswordHasher.memory_cost (ph : PasswordHasher) : Int :=
  ph._parameters.memory_cost

/-- Property `PasswordHasher.parallelism` (src lines 167–169). -/
def PasswordHasher.parallelism (ph : PasswordHasher) : Int :=
  ph._parameters.parallelism

/-- Property `PasswordHasher.hash_len` (src lines 171–173). -/
def PasswordHasher.hash_len (ph : PasswordHasher) : Int :=
  ph._parameters.hash_len

/-- Property `PasswordHasher.salt_len` (src lines 175–177). -/
def PasswordHasher.salt_len (ph : PasswordHasher) : Int :=
  ph._parameters.salt_len

/-- Property `PasswordHasher.type` (src lines 179–181). -/
def PasswordHasher.type (ph : PasswordHasher) : ArgonType :=
  ph._parameters.type

/-- A Python `dict[bytes, Type]` lookup, as performed by
`self._header_to_type[hash[:9]]`. -/
def dictLookup (d : List (Bytes × ArgonType)) (k : Bytes) : Option ArgonType :=
  match d with
  | [] => none
  | (key, v) :: rest => if k = key then some v else dictLookup rest k

/-- `PasswordHasher._header_to_type` (src lines 216–220): the fixed mapping from
nine-byte header tokens to variants. -/
def _header_to_type : List (Bytes × ArgonType) :=
  [(asciiOf "$argon2i$", ArgonType.i),
   (asciiOf "$argon2d$", ArgonType.d),
   (asciiOf "$argon2id", ArgonType.id)]

/-- Modelled from the spec (§6): `argon2.low_level.verify_secret` returns the
literal `True` on success and otherwise raises `VerifyMismatchError` or
`VerificationError`; the `low_level` module is not under `src/`.  The oracle
`vs` decides, for given arguments, success (`none`) or the raised error. -/
def verify_secret (vs : Bytes → Bytes → ArgonType → Option PyError)
    (hash secret : Bytes) (ty : ArgonType) : Except PyError Bool :=
  match vs hash secret ty with
  | none => Except.ok true
  | some e => Except.error e

/-- Constraint on a `verify_secret` oracle, from the spec (§6): the primitive
fails only with `VerifyMismatchError` or `VerificationError`. -/
def VsSpec (vs : Bytes → Bytes → ArgonType → Option PyError) : Prop :=
  ∀ h s t e, vs h s t = some e →
    e = PyError.verifyMismatch ∨ e = PyError.verificationError

/-- Modelled from the spec (§6): `argon2.low_level.hash_secret` returns the
fully encoded hash text (as ASCII bytes) or fails with `HashingError`; the
`low_level` module is not under `src/`.  The oracle `impl` gives the computed
bytes, `none` meaning the primitive failed. -/
def hash_secret
    (impl : Bytes → Bytes → Int → Int → Int → Int → ArgonType → Option Bytes)
    (secret salt : Bytes) (time_cost memory_cost par hash_len : Int)
    (ty : ArgonType) : Except PyError Bytes :=
  match impl secret salt time_cost memory_cost par hash_len ty with
  | some out => Except.ok out
  | none => Except.error .hashingError

/-- `PasswordHasher.hash` (src lines 183–214): coerce the password with the
configured encoding, use the supplied salt if truthy and otherwise
`os.urandom(self.salt_len)` (oracle `ur`), call `hash_secret` with the
instance's parameters, and ASCII-decode its result. -/
def PasswordHasher.hash (ph : PasswordHasher) (enc : EncOracle)
    (impl : Bytes → Bytes → Int → Int → Int → Int → ArgonType → Option Bytes)
    (ur : Int → Bytes) (password : StrOrBytes) (salt : Option Bytes) :
    Except PyError Bytes := do
  let pw ← _ensure_bytes enc password ph.encoding
  let s := match salt with
    | some s => if s = [] then ur ph.salt_len else s
    | none => ur ph.salt_len
  let out ← hash_secret impl pw s ph.time_cost ph.memory_cost ph.parallelism
    ph.hash_len ph.type
  asciiDecode out

/-- `PasswordHasher.verify` (src lines 222–267): coerce the hash to ASCII
bytes, look its first nine bytes up in `_header_to_type` (raising
`InvalidHashError` on a miss), then forward hash bytes, password bytes and the
found variant to `verify_secret`. -/
def PasswordHasher.verify (ph : PasswordHasher) (enc : EncOracle)
    (vs : Bytes → Bytes → ArgonType → Option PyError)
    (hash password : StrOrBytes) : Except PyError Bool := do
  let h ← _ensure_bytes enc hash "ascii"
  match dictLookup _header_to_type (h.take 9) with
  | none => Except.error .invalidHash
  | some ty => do
    let pw ← _ensure_bytes enc password ph.encoding
    verify_secret vs h pw ty

/-- Python `str.split(sep)` for a single-character separator, over code points. -/
def pySplit (sep : Nat) : Bytes → List Bytes
  | [] => [[]]
  | c :: rest =>
    if c = sep then [] :: pySplit sep rest
    else match pySplit sep rest with
      | [] => [[c]]
      | s :: ss => (c :: s) :: ss

/-- Accumulator pass of decimal parsing. -/
def parseDigitsAux (acc : Nat) : Bytes → Option Nat
  | [] => some acc
  | c :: r => if 48 ≤ c ∧ c ≤ 57 then parseDigitsAux (acc * 10 + (c - 48)) r else none

/-- Python `int(s)` restricted to nonempty strings of decimal digits — the
strict numeric-field syntax of the codec (spec §4.3). -/
def parseNat? (s : Bytes) : Option Nat :=
  if s = [] then none else parseDigitsAux 0 s

/-- Decimal rendering of a natural number, most significant digit first
(Python `str(n)` for `n ≥ 0`). -/
def natRepr (n : Nat) : Bytes :=
  if h : n < 10 then [48 + n]
  else natRepr (n / 10) ++ [48 + n % 10]
decreasing_by exact Nat.div_lt_self (by omega) (by omega)

/-- Python `str(n)` for an `int`. -/
def intRepr (n : Int) : Bytes :=
  if n < 0 then 45 :: natRepr n.natAbs else natRepr n.toNat

/-- Character of a six-bit group in the standard base64 alphabet (spec §4.3:
standard alphabet, no padding). -/
def b64char (v : Nat) : Nat :=
  if v < 26 then 65 + v
  else if v < 52 then 97 + (v - 26)
  else if v < 62 then 48 + (v - 52)
  else if v = 62 then 43
  else 47

/-- Six-bit value of a standard-base64 alphabet character; `none` on a
character outside the alphabet. -/
def b64val? (c : Nat) : Option Nat :=
  if 65 ≤ c ∧ c ≤ 90 then some (c - 65)
  else if 97 ≤ c ∧ c ≤ 122 then some (c - 97 + 26)
  else if 48 ≤ c ∧ c ≤ 57 then some (c - 48 + 52)
  else if c = 43 then some 62
  else if c = 47 then some 63
  else none

/-- Unpadded standard base64 encoding of a byte string (spec §4.3). -/
def b64encode : Bytes → Bytes
  | [] => []
  | [a] => [b64char (a / 4), b64char (a % 4 * 16)]
  | [a, b] => [b64char (a / 4), b64char (a % 4 * 16 + b / 16), b64char (b % 16 * 4)]
  | a :: b :: c :: rest =>
    b64char (a / 4) :: b64char (a % 4 * 16 + b / 16) ::
      b64char (b % 16 * 4 + c / 64) :: b64char (c % 64) :: b64encode rest

/-- Unpadded standard base64 decoding; `none` on an invalid character or an
impossible length (spec §4.3: strict, rejects invalid characters). -/
def b64decode : Bytes → Option Bytes
  | [] => some []
  | [_] => none
  | [c1, c2] => do
    let v1 ← b64val? c1
    let v2 ← b64val? c2
    some [v1 * 4 + v2 / 16]
  | [c1, c2, c3] => do
    let v1 ← b64val? c1
    let v2 ← b64val? c2
    let v3 ← b64val? c3
    some [v1 * 4 + v2 / 16, v2 % 16 * 16 + v3 / 4]
  | c1 :: c2 :: c3 :: c4 :: rest => do
    let v1 ← b64val? c1
    let v2 ← b64val? c2
    let v3 ← b64val? c3
    let v4 ← b64val? c4
    let tail ← b64decode rest
    some ((v1 * 4 + v2 / 16) :: (v2 % 16 * 16 + v3 / 4) :: (v3 % 4 * 64 + v4) :: tail)

/-- Variant of a full variant token (the segment between the first two `$`). -/
def variantOfToken (v : Bytes) : Option ArgonType :=
  if v = asciiOf "argon2i" then some ArgonType.i
  else if v = asciiOf "argon2d" then some ArgonType.d
  else if v = asciiOf "argon2id" then some ArgonType.id
  else none

/-- Parse a `<key>=<digits>` segment with the given key character. -/
def parseKeyVal (key : Nat) (s : Bytes) : Option Nat :=
  match s with
  | k :: e :: rest => if k = key ∧ e = 61 then parseNat? rest else none
  | _ => none

/-- Parse the performance segment `m=<digits>,t=<digits>,p=<digits>`, in
exactly that order (spec §4.3: no other serialization order is accepted). -/
def parsePerf (s : Bytes) : Option (Nat × Nat × Nat) :=
  match pySplit 44 s with
  | [ms, ts, ps] => do
    let m ← parseKeyVal 109 ms
    let t ← parseKeyVal 116 ts
    let p ← parseKeyVal 112 ps
    some (m, t, p)
  | _ => none

/-- `argon2._utils.extract_parameters`. Modelled from the spec (§4.3 `decode`)
and its call site in `check_needs_rehash`; the `_utils` module is not under
`src/`.  Strictly parses the modular encoded hash
`$argon2<variant>$v=<version>$m=..,t=..,p=..$<salt>$<hash>` and fails with
`InvalidHashError` on any deviation; `salt_len` and `hash_len` are recovered
from the decoded segment lengths. -/
def extract_parameters (s : Bytes) : Except PyError Parameters :=
  match pySplit 36 s with
  | [e, var, vseg, perf, sseg, hseg] =>
    match e, variantOfToken var, parseKeyVal 118 vseg, parsePerf perf,
        b64decode sseg, b64decode hseg with
    | [], some ty, some ver, some (m, t, p), some salt, some raw =>
      Except.ok { type := ty, version := (ver : Int),
                  salt_len := (salt.length : Int), hash_len := (raw.length : Int),
                  time_cost := (t : Int), memory_cost := (m : Int),
                  parallelism := (p : Int) }
    | _, _, _, _, _, _ => Except.error .invalidHash
  | _ => Except.error .invalidHash

/-- Modelled from the spec (§4.3): the lower-case variant token of the encoded
format. -/
def variantToken : ArgonType → Bytes
  | .i => asciiOf "i"
  | .d => asciiOf "d"
  | .id => asciiOf "id"

/-- Modelled from the spec (§4.3 `encode`): serialize parameters, salt and raw
hash into the modular format, fields in the fixed order shown there.  The
encode step lives inside the external primitive (spec §4.4), so this definition
describes the text form of a hash produced with given parameters. -/
def encodeHash (p : Parameters) (salt raw : Bytes) : Bytes :=
  [36] ++ (asciiOf "argon2" ++ variantToken p.type) ++
  [36] ++ (asciiOf "v=" ++ intRepr p.version) ++
  [36] ++ (asciiOf "m=" ++ intRepr p.memory_cost ++ [44] ++
           asciiOf "t=" ++ intRepr p.time_cost ++ [44] ++
           asciiOf "p=" ++ intRepr p.parallelism) ++
  [36] ++ b64encode salt ++
  [36] ++ b64encode raw

/-- `PasswordHasher.check_needs_rehash` (src lines 269–294): ASCII-decode a
`bytes` input, extract the stored hash's parameters, and compare them against
the instance's parameters with full-field inequality. -/
def PasswordHasher.check_needs_rehash (ph : PasswordHasher)
    (hash : StrOrBytes) : Except PyError Bool := do
  let s ← match hash with
    | .bytes b => asciiDecode b
    | .str t => Except.ok t
  let q ← extract_parameters s
  Except.ok (decide (ph._parameters ≠ q))

/-! ### Helper lemmas about the codec's building blocks -/

theorem pySplit_no_sep (sep : Nat) (xs : Bytes) (h : ∀ c ∈ xs, c ≠ sep) :
    pySplit sep xs = [xs] := by
  induction xs with
  | nil => rfl
  | cons c rest ih =>
    have hc : c ≠ sep := h c (by simp)
    have hr := ih (fun d hd => h d (by simp [hd]))
    simp only [pySplit, if_neg hc, hr]

theorem pySplit_append_sep (sep : Nat) (xs r : Bytes) (h : ∀ c ∈ xs, c ≠ sep) :
    pySplit sep (xs ++ sep :: r) = xs :: pySplit sep r := by
  induction xs with
  | nil => simp [pySplit]
  | cons c rest ih =>
    have hc : c ≠ sep := h c (by simp)
    have hr := ih (fun d hd => h d (by simp [hd]))
    simp only [List.cons_append, pySplit, if_neg hc, List.append_eq, hr]

theorem natRepr_digits (n : Nat) : ∀ c ∈ natRepr n, 48 ≤ c ∧ c ≤ 57 := by
  induction n using natRepr.induct with
  | case1 n h =>
    rw [natRepr]
    simp only [dif_pos h]
    intro c hc
    simp at hc
    omega
  | case2 n h ih =>
    rw [natRepr]
    simp only [dif_neg h]
    intro c hc
    rcases List.mem_append.mp hc with h1 | h1
    · exact ih c h1
    · simp at h1
      omega

theorem natRepr_ne_nil (n : Nat) : natRepr n ≠ [] := by
  rw [natRepr]
  by_cases h : n < 10
  · simp [dif_pos h]
  · simp [dif_neg h]

theorem parseDigitsAux_append (xs ys : Bytes) : ∀ acc,
    parseDigitsAux acc (xs ++ ys) =
      (parseDigitsAux acc xs).bind (fun a => parseDigitsAux a ys) := by
  induction xs with
  | nil => intro acc; simp [parseDigitsAux]
  | cons c rest ih =>
    intro acc
    by_cases h : 48 ≤ c ∧ c ≤ 57
    · simp only [List.cons_append, parseDigitsAux, if_pos h]
      exact ih _
    · simp only [List.cons_append, parseDigitsAux, if_neg h, Option.bind]

theorem parseDigitsAux_natRepr (n : Nat) : ∀ acc,
    parseDigitsAux acc (natRepr n) =
      some (acc * 10 ^ (natRepr n).length + n) := by
  induction n using natRepr.induct with
  | case1 n h =>
    intro acc
    rw [natRepr]
    simp only [dif_pos h]
    have hd : 48 ≤ 48 + n ∧ 48 + n ≤ 57 := by omega
    simp only [parseDigitsAux, if_pos hd, List.length_cons, List.length_nil]
    congr 1
    omega
  | case2 n h ih =>
    intro acc
    rw [natRepr]
    simp only [dif_neg h]
    rw [parseDigitsAux_append]
    rw [ih acc]
    have hd : 48 ≤ 48 + n % 10 ∧ 48 + n % 10 ≤ 57 := by omega
    simp only [Option.some_bind, parseDigitsAux, if_pos hd]
    congr 1
    rw [List.length_append, List.length_singleton, pow_succ,
      Nat.add_sub_cancel_left]
    calc (acc * 10 ^ (natRepr (n / 10)).length + n / 10) * 10 + n % 10
        = acc * (10 ^ (natRepr (n / 10)).length * 10) +
            (10 * (n / 10) + n % 10) := by ring
      _ = acc * (10 ^ (natRepr (n / 10)).length * 10) + n := by
          rw [Nat.div_add_mod]

theorem parseNat?_natRepr (n : Nat) : parseNat? (natRepr n) = some n := by
  rw [parseNat?, if_neg (natRepr_ne_nil n), parseDigitsAux_natRepr]
  simp

theorem intRepr_of_nonneg (n : Int) (h : 0 ≤ n) : intRepr n = natRepr n.toNat := by
  rw [intRepr, if_neg (by omega)]

theorem parseNat?_intRepr (n : Int) (h : 0 ≤ n) :
    parseNat? (intRepr n) = some n.toNat := by
  rw [intRepr_of_nonneg n h, parseNat?_natRepr]

theorem b64val?_b64char : ∀ v, v < 64 → b64val? (b64char v) = some v := by decide

theorem b64char_ne_sep (v : Nat) : b64char v ≠ 36 ∧ b64char v ≠ 44 := by
  unfold b64char
  split
  · omega
  · split
    · omega
    · split
      · omega
      · split
        · omega
        · omega

theorem b64encode_ne_sep (bs : Bytes) : ∀ c ∈ b64encode bs, c ≠ 36 ∧ c ≠ 44 := by
  induction bs using b64encode.induct with
  | case1 =>
    simp [b64encode]
  | case2 a =>
    intro c hc
    simp only [b64encode, List.mem_cons, List.not_mem_nil, or_false] at hc
    rcases hc with h | h
    all_goals { subst h; exact b64char_ne_sep _ }
  | case3 a b =>
    intro c hc
    simp only [b64encode, List.mem_cons, List.not_mem_nil, or_false] at hc
    rcases hc with h | h | h
    all_goals { subst h; exact b64char_ne_sep _ }
  | case4 a b c rest ih =>
    intro d hd
    simp only [b64encode, List.mem_cons] at hd
    rcases hd with h | h | h | h | h
    · subst h; exact b64char_ne_sep _
    · subst h; exact b64char_ne_sep _
    · subst h; exact b64char_ne_sep _
    · subst h; exact b64char_ne_sep _
    · exact ih d h

theorem b64decode_b64encode (bs : Bytes) (h : ∀ b ∈ bs, b < 256) :
    b64decode (b64encode bs) = some bs := by
  induction bs using b64encode.induct with
  | case1 => rfl
  | case2 a =>
    have ha : a < 256 := h a (by simp)
    simp only [b64encode, b64decode]
    rw [b64val?_b64char _ (by omega), b64val?_b64char _ (by omega)]
    simp
    omega
  | case3 a b =>
    have ha : a < 256 := h a (by simp)
    have hb : b < 256 := h b (by simp)
    simp only [b64encode, b64decode]
    rw [b64val?_b64char _ (by omega), b64val?_b64char _ (by omega),
      b64val?_b64char _ (by omega)]
    simp
    omega
  | case4 a b c rest ih =>
    have ha : a < 256 := h a (by simp)
    have hb : b < 256 := h b (by simp)
    have hc : c < 256 := h c (by simp)
    have hrest := ih (fun d hd => h d (by simp [hd]))
    simp only [b64encode, b64decode]
    rw [b64val?_b64char _ (by omega), b64val?_b64char _ (by omega),
      b64val?_b64char _ (by omega), b64val?_b64char _ (by omega), hrest]
    simp
    omega

theorem digitsInt_ne_sep (n : Int) (hn : 0 ≤ n) :
    ∀ c ∈ intRepr n, c ≠ 36 ∧ c ≠ 44 := by
  intro c hc
  rw [intRepr_of_nonneg n hn] at hc
  have := natRepr_digits n.toNat c hc
  omega

theorem parseKeyVal_cons (k : Nat) (n : Int) (hn : 0 ≤ n) :
    parseKeyVal k (k :: 61 :: intRepr n) = some n.toNat := by
  simp [parseKeyVal, parseNat?_intRepr n hn]

theorem pySplit_cons_sep (sep : Nat) (r : Bytes) :
    pySplit sep (sep :: r) = [] :: pySplit sep r := by
  simp [pySplit]

theorem extract_parameters_encodeHash (p : Parameters) (salt raw : Bytes)
    (hv : 0 ≤ p.version) (ht : 0 ≤ p.time_cost) (hm : 0 ≤ p.memory_cost)
    (hpar : 0 ≤ p.parallelism)
    (hs : ∀ b ∈ salt, b < 256) (hr : ∀ b ∈ raw, b < 256) :
    extract_parameters (encodeHash p salt raw) =
      Except.ok { p with salt_len := (salt.length : Int),
                         hash_len := (raw.length : Int) } := by
  obtain ⟨ty, ver, sl, hl, tc, mc, pl⟩ := p
  simp only at hv ht hm hpar ⊢
  have hA : ∀ c ∈ asciiOf "argon2" ++ variantToken ty, c ≠ 36 := by
    cases ty <;> decide
  have hvar : variantOfToken (asciiOf "argon2" ++ variantToken ty) = some ty := by
    cases ty <;> decide
  have hB : ∀ c ∈ asciiOf "v=" ++ intRepr ver, c ≠ 36 := by
    intro c hc
    rcases List.mem_append.mp hc with h1 | h1
    · rw [show asciiOf "v=" = [118, 61] from rfl] at h1
      simp at h1
      omega
    · exact (digitsInt_ne_sep ver hv c h1).1
  have hm44 : ∀ c ∈ asciiOf "m=" ++ intRepr mc, c ≠ 44 := by
    intro c hc
    rcases List.mem_append.mp hc with h1 | h1
    · rw [show asciiOf "m=" = [109, 61] from rfl] at h1
      simp at h1
      omega
    · exact (digitsInt_ne_sep mc hm c h1).2
  have ht44 : ∀ c ∈ asciiOf "t=" ++ intRepr tc, c ≠ 44 := by
    intro c hc
    rcases List.mem_append.mp hc with h1 | h1
    · rw [show asciiOf "t=" = [116, 61] from rfl] at h1
      simp at h1
      omega
    · exact (digitsInt_ne_sep tc ht c h1).2
  have hp44 : ∀ c ∈ asciiOf "p=" ++ intRepr pl, c ≠ 44 := by
    intro c hc
    rcases List.mem_append.mp hc with h1 | h1
    · rw [show asciiOf "p=" = [112, 61] from rfl] at h1
      simp at h1
      omega
    · exact (digitsInt_ne_sep pl hpar c h1).2
  have hC : ∀ c ∈ asciiOf "m=" ++ intRepr mc ++ [44] ++ asciiOf "t=" ++
      intRepr tc ++ [44] ++ asciiOf "p=" ++ intRepr pl, c ≠ 36 := by
    intro c hc
    simp only [List.append_assoc, List.mem_append] at hc
    rcases hc with h1 | h1 | h1 | h1 | h1 | h1 | h1 | h1
    · rw [show asciiOf "m=" = [109, 61] from rfl] at h1
      simp at h1
      omega
    · exact (digitsInt_ne_sep mc hm c h1).1
    · simp at h1
      omega
    · rw [show asciiOf "t=" = [116, 61] from rfl] at h1
      simp at h1
      omega
    · exact (digitsInt_ne_sep tc ht c h1).1
    · simp at h1
      omega
    · rw [show asciiOf "p=" = [112, 61] from rfl] at h1
      simp at h1
      omega
    · exact (digitsInt_ne_sep pl hpar c h1).1
  have hD : ∀ c ∈ b64encode salt, c ≠ 36 := fun c hc => (b64encode_ne_sep salt c hc).1
  have hE : ∀ c ∈ b64encode raw, c ≠ 36 := fun c hc => (b64encode_ne_sep raw c hc).1
  have hperf : parsePerf (asciiOf "m=" ++ intRepr mc ++ [44] ++ asciiOf "t=" ++
      intRepr tc ++ [44] ++ asciiOf "p=" ++ intRepr pl) =
      some (mc.toNat, tc.toNat, pl.toNat) := by
    unfold parsePerf
    have hshape : asciiOf "m=" ++ intRepr mc ++ [44] ++ asciiOf "t=" ++
        intRepr tc ++ [44] ++ asciiOf "p=" ++ intRepr pl =
        (asciiOf "m=" ++ intRepr mc) ++ 44 :: ((asciiOf "t=" ++ intRepr tc) ++
          44 :: (asciiOf "p=" ++ intRepr pl)) := by
      simp [List.append_assoc]
    rw [hshape, pySplit_append_sep 44 _ _ hm44, pySplit_append_sep 44 _ _ ht44,
      pySplit_no_sep 44 _ hp44]
    rw [show asciiOf "m=" ++ intRepr mc = 109 :: 61 :: intRepr mc from rfl,
      show asciiOf "t=" ++ intRepr tc = 116 :: 61 :: intRepr tc from rfl,
      show asciiOf "p=" ++ intRepr pl = 112 :: 61 :: intRepr pl from rfl]
    simp [parseKeyVal_cons 109 mc hm, parseKeyVal_cons 116 tc ht,
      parseKeyVal_cons 112 pl hpar]
  unfold encodeHash extract_parameters
  simp only
  have hshape6 : ([36] : Bytes) ++ (asciiOf "argon2" ++ variantToken ty) ++
      [36] ++ (asciiOf "v=" ++ intRepr ver) ++
      [36] ++ (asciiOf "m=" ++ intRepr mc ++ [44] ++ asciiOf "t=" ++
        intRepr tc ++ [44] ++ asciiOf "p=" ++ intRepr pl) ++
      [36] ++ b64encode salt ++ [36] ++ b64encode raw =
      36 :: ((asciiOf "argon2" ++ variantToken ty) ++
        36 :: ((asciiOf "v=" ++ intRepr ver) ++
          36 :: ((asciiOf "m=" ++ intRepr mc ++ [44] ++ asciiOf "t=" ++
            intRepr tc ++ [44] ++ asciiOf "p=" ++ intRepr pl) ++
            36 :: (b64encode salt ++ 36 :: b64encode raw)))) := by
    simp [List.append_assoc]
  rw [hshape6, pySplit_cons_sep, pySplit_append_sep 36 _ _ hA,
    pySplit_append_sep 36 _ _ hB, pySplit_append_sep 36 _ _ hC,
    pySplit_append_sep 36 _ _ hD, pySplit_no_sep 36 _ hE]
  rw [show asciiOf "v=" ++ intRepr ver = 118 :: 61 :: intRepr ver from rfl]
  simp only [hvar, parseKeyVal_cons 118 ver hv, hperf,
    b64decode_b64encode salt hs, b64decode_b64encode raw hr]
  simp [Int.toNat_of_nonneg, hv, ht, hm, hpar]

/-! ### Reduction helpers for the Except-valued methods -/

instance {e a : Type} [DecidableEq e] [DecidableEq a] : DecidableEq (Except e a) := fun x y =>
  match x, y with
  | .ok u, .ok v =>
    if h : u = v then isTrue (by rw [h]) else isFalse (fun hc => h (Except.ok.inj hc))
  | .error u, .error v =>
    if h : u = v then isTrue (by rw [h]) else isFalse (fun hc => h (Except.error.inj hc))
  | .ok _, .error _ => isFalse (fun hc => Except.noConfusion hc)
  | .error _, .ok _ => isFalse (fun hc => Except.noConfusion hc)

theorem except_bind_ok {e a b : Type} (x : a) (f : a → Except e b) :
    (Except.ok x : Except e a) >>= f = f x := rfl

theorem except_bind_error {e a b : Type} (err : e) (f : a → Except e b) :
    (Except.error err : Except e a) >>= f = Except.error err := rfl

theorem extract_parameters_error_invalidHash (s : Bytes) (e : PyError)
    (h : extract_parameters s = .error e) : e = .invalidHash := by
  unfold extract_parameters at h
  split at h
  · split at h
    · exact absurd h (by simp)
    · exact (Except.error.inj h).symm
  · exact (Except.error.inj h).symm

theorem check_needs_rehash_str (ph : PasswordHasher) (s : Bytes) :
    ph.check_needs_rehash (.str s) =
      extract_parameters s >>= fun q =>
        Except.ok (decide (ph._parameters ≠ q)) := by
  show Except.ok s >>= (fun y => extract_parameters y >>= fun q =>
    Except.ok (decide (ph._parameters ≠ q))) = _
  rw [except_bind_ok]

theorem check_needs_rehash_str_ok (ph : PasswordHasher) (s : Bytes)
    (q : Parameters) (hq : extract_parameters s = .ok q) :
    ph.check_needs_rehash (.str s) = .ok (decide (ph._parameters ≠ q)) := by
  rw [check_needs_rehash_str, hq, except_bind_ok]

theorem check_needs_rehash_str_error (ph : PasswordHasher) (s : Bytes)
    (e : PyError) (hq : extract_parameters s = .error e) :
    ph.check_needs_rehash (.str s) = .error e := by
  rw [check_needs_rehash_str, hq, except_bind_error]

theorem verify_bytes_reduce (ph : PasswordHasher) (enc : EncOracle)
    (vs : Bytes → Bytes → ArgonType → Option PyError) (h pw : Bytes) :
    ph.verify enc vs (.bytes h) (.bytes pw) =
      match dictLookup _header_to_type (h.take 9) with
      | none => Except.error .invalidHash
      | some ty => verify_secret vs h pw ty := rfl

theorem verify_bytes_header_miss (ph : PasswordHasher) (enc : EncOracle)
    (vs : Bytes → Bytes → ArgonType → Option PyError) (h pw : Bytes)
    (hl : dictLookup _header_to_type (h.take 9) = none) :
    ph.verify enc vs (.bytes h) (.bytes pw) = .error .invalidHash := by
  rw [verify_bytes_reduce, hl]

theorem verify_bytes_header_hit (ph : PasswordHasher) (enc : EncOracle)
    (vs : Bytes → Bytes → ArgonType → Option PyError) (h pw : Bytes)
    (ty : ArgonType) (hl : dictLookup _header_to_type (h.take 9) = some ty) :
    ph.verify enc vs (.bytes h) (.bytes pw) = verify_secret vs h pw ty := by
  rw [verify_bytes_reduce, hl]

/-- All seven constructor arguments have their expected Python classes. -/
def InitArgs.welltyped (a : InitArgs) : Prop :=
  a.time_cost.isInst .int = true ∧ a.memory_cost.isInst .int = true ∧
  a.parallelism.isInst .int = true ∧ a.hash_len.isInst .int = true ∧
  a.salt_len.isInst .int = true ∧ a.encoding.isInst .str = true ∧
  a.type.isInst .atype = true

theorem _check_types_none_iff (l : List (String × PyVal × PyType)) :
    _check_types l = none ↔ ∀ x ∈ l, x.2.1.isInst x.2.2 = true := by
  have hiff : (l.filter (fun x => !(x.2.1.isInst x.2.2)) = []) ↔
      (∀ x ∈ l, x.2.1.isInst x.2.2 = true) := by
    rw [List.filter_eq_nil_iff]
    simp
  by_cases hf : l.filter (fun x => !(x.2.1.isInst x.2.2)) = []
  · simp only [_check_types, if_pos hf]
    constructor
    · intro _
      exact hiff.mp hf
    · intro _
      trivial
  · simp only [_check_types, if_neg hf]
    constructor
    · intro h
      exact absurd h (by simp)
    · intro hall
      exact absurd (hiff.mpr hall) hf

theorem init_check_none_iff (a : InitArgs) :
    _check_types [("time_cost", a.time_cost, PyType.int),
      ("memory_cost", a.memory_cost, PyType.int),
      ("parallelism", a.parallelism, PyType.int),
      ("hash_len", a.hash_len, PyType.int),
      ("salt_len", a.salt_len, PyType.int),
      ("encoding", a.encoding, PyType.str),
      ("type", a.type, PyType.atype)] = none ↔ a.welltyped := by
  rw [_check_types_none_iff]
  simp [InitArgs.welltyped]

theorem init_wrong_typed (env : SysEnv) (a : InitArgs) (h : ¬ a.welltyped) :
    ∃ m, PasswordHasher.init env a = Except.error (.typeError m) := by
  have hne : _check_types [("time_cost", a.time_cost, PyType.int),
      ("memory_cost", a.memory_cost, PyType.int),
      ("parallelism", a.parallelism, PyType.int),
      ("hash_len", a.hash_len, PyType.int),
      ("salt_len", a.salt_len, PyType.int),
      ("encoding", a.encoding, PyType.str),
      ("type", a.type, PyType.atype)] ≠ none :=
    fun hn => h ((init_check_none_iff a).mp hn)
  cases hc : _check_types [("time_cost", a.time_cost, PyType.int),
      ("memory_cost", a.memory_cost, PyType.int),
      ("parallelism", a.parallelism, PyType.int),
      ("hash_len", a.hash_len, PyType.int),
      ("salt_len", a.salt_len, PyType.int),
      ("encoding", a.encoding, PyType.str),
      ("type", a.type, PyType.atype)] with
  | none => exact absurd hc hne
  | some m =>
    refine ⟨m, ?_⟩
    unfold PasswordHasher.init
    rw [hc]

/-- The `Parameters` built by `__init__` from the default arguments with a
given parallelism. -/
def builtParams (p : Int) : Parameters :=
  { RFC_9106_LOW_MEMORY with parallelism := p }

theorem hash_reduce (ph : PasswordHasher) (enc : EncOracle)
    (impl : Bytes → Bytes → Int → Int → Int → Int → ArgonType → Option Bytes)
    (ur : Int → Bytes) (password : StrOrBytes) (salt : Option Bytes) :
    ph.hash enc impl ur password salt =
      _ensure_bytes enc password ph.encoding >>= fun pw =>
        hash_secret impl pw
          (match salt with
            | some s => if s = [] then ur ph.salt_len else s
            | none => ur ph.salt_len)
          ph.time_cost ph.memory_cost ph.parallelism ph.hash_len ph.type >>=
          asciiDecode := rfl

/-! ### Claim theorems -/

/-- C2: an input hash whose first nine bytes match none of the three variant
tokens makes `verify` fail with `InvalidHashError` for every possible
primitive (so before the primitive is ever consulted), while a hash whose
first nine bytes match a token is forwarded — hash bytes, password bytes and
the corresponding variant — to `verify_secret`. -/
theorem verify_variant_dispatch (ph : PasswordHasher) (enc : EncOracle)
    (h pw : Bytes) :
    (dictLookup _header_to_type (h.take 9) = none →
      ∀ vs, ph.verify enc vs (.bytes h) (.bytes pw) = Except.error .invalidHash)
  ∧ (∀ ty, dictLookup _header_to_type (h.take 9) = some ty →
      ∀ vs, ph.verify enc vs (.bytes h) (.bytes pw) = verify_secret vs h pw ty) := by
  constructor
  · intro hl vs
    exact verify_bytes_header_miss ph enc vs h pw hl
  · intro ty hl vs
    exact verify_bytes_header_hit ph enc vs h pw ty hl

/-- Witness for C2 at concrete inputs: an unrecognized header fails with
`InvalidHashError`; a recognized `$argon2id` header is forwarded. -/
theorem verify_variant_dispatch_witness :
    (PasswordHasher.verify ⟨RFC_9106_LOW_MEMORY, "utf-8"⟩ (fun _ s => Except.ok s)
        (fun _ _ _ => none) (.bytes (asciiOf "$bcrypt$x")) (.bytes []) =
      Except.error .invalidHash)
  ∧ (PasswordHasher.verify ⟨RFC_9106_LOW_MEMORY, "utf-8"⟩ (fun _ s => Except.ok s)
        (fun _ _ _ => none) (.bytes (asciiOf "$argon2id$v=19$x")) (.bytes []) =
      verify_secret (fun _ _ _ => none) (asciiOf "$argon2id$v=19$x") [] .id) :=
  ⟨(verify_variant_dispatch ⟨RFC_9106_LOW_MEMORY, "utf-8"⟩ (fun _ s => Except.ok s)
      (asciiOf "$bcrypt$x") []).1 (by decide) (fun _ _ _ => none),
   (verify_variant_dispatch ⟨RFC_9106_LOW_MEMORY, "utf-8"⟩ (fun _ s => Except.ok s)
      (asciiOf "$argon2id$v=19$x") []).2 .id (by decide) (fun _ _ _ => none)⟩

/-- C8: whenever `verify` returns at all (for any hash, password, codec and
primitive behaviour), the returned value is the literal `true`; failure is
always an exception. -/
theorem verify_success_literal_true (ph : PasswordHasher) (enc : EncOracle)
    (vs : Bytes → Bytes → ArgonType → Option PyError)
    (hash password : StrOrBytes) (b : Bool)
    (h : ph.verify enc vs hash password = Except.ok b) : b = true := by
  unfold PasswordHasher.verify at h
  cases he : _ensure_bytes enc hash "ascii" with
  | error e =>
    simp only [he, except_bind_error] at h
    exact absurd h (by simp)
  | ok hb =>
    simp only [he, except_bind_ok] at h
    cases hl : dictLookup _header_to_type (hb.take 9) with
    | none =>
      simp only [hl] at h
      exact absurd h (by simp)
    | some ty =>
      simp only [hl] at h
      cases hp : _ensure_bytes enc password ph.encoding with
      | error e =>
        simp only [hp, except_bind_error] at h
        exact absurd h (by simp)
      | ok pwb =>
        simp only [hp, except_bind_ok, verify_secret] at h
        cases hvv : vs hb pwb ty with
        | none =>
          simp only [hvv] at h
          exact (Except.ok.inj h).symm
        | some e =>
          simp only [hvv] at h
          exact absurd h (by simp)

/-- Witness for C8: a concrete successful verification returns `true`. -/
theorem verify_success_literal_true_witness : true = true :=
  verify_success_literal_true ⟨RFC_9106_LOW_MEMORY, "utf-8"⟩
    (fun _ s => Except.ok s) (fun _ _ _ => none)
    (.bytes (asciiOf "$argon2id$v=19$x")) (.bytes []) true (by decide)

/-- C9: supplying `salt=b""` is indistinguishable from supplying no salt at
all — the empty salt is falsy, so `salt or os.urandom(self.salt_len)` replaces
it with a fresh random salt of `salt_len` bytes. -/
theorem hash_empty_salt_replaced (ph : PasswordHasher) (enc : EncOracle)
    (impl : Bytes → Bytes → Int → Int → Int → Int → ArgonType → Option Bytes)
    (ur : Int → Bytes) (password : StrOrBytes) :
    ph.hash enc impl ur password (some []) = ph.hash enc impl ur password none := rfl

/-- C7: `hash` coerces a text password with the configured encoding (and
propagates the codec's failure), uses `os.urandom(salt_len)` when no salt is
given, forwards password bytes, salt and every parameter field to the
primitive, returns the primitive's already-encoded text (ASCII-decoded), and
surfaces a primitive failure as `HashingError`. -/
theorem hash_argument_assembly (ph : PasswordHasher) (enc : EncOracle)
    (impl : Bytes → Bytes → Int → Int → Int → Int → ArgonType → Option Bytes)
    (ur : Int → Bytes) :
    (∀ s pw, enc ph.encoding s = Except.ok pw →
      ph.hash enc impl ur (.str s) none = ph.hash enc impl ur (.bytes pw) none)
  ∧ (∀ s e, enc ph.encoding s = Except.error e →
      ph.hash enc impl ur (.str s) none = Except.error e)
  ∧ (∀ pw, ph.hash enc impl ur (.bytes pw) none =
      hash_secret impl pw (ur ph.salt_len) ph.time_cost ph.memory_cost
        ph.parallelism ph.hash_len ph.type >>= asciiDecode)
  ∧ (∀ pw, impl pw (ur ph.salt_len) ph.time_cost ph.memory_cost ph.parallelism
        ph.hash_len ph.type = none →
      ph.hash enc impl ur (.bytes pw) none = Except.error .hashingError)
  ∧ (∀ pw out, impl pw (ur ph.salt_len) ph.time_cost ph.memory_cost
        ph.parallelism ph.hash_len ph.type = some out →
      ph.hash enc impl ur (.bytes pw) none = asciiDecode out) := by
  refine ⟨?_, ?_, ?_, ?_, ?_⟩
  · intro s pw h
    rw [hash_reduce, hash_reduce]
    simp only [_ensure_bytes, h, except_bind_ok]
  · intro s e h
    rw [hash_reduce]
    simp only [_ensure_bytes, h, except_bind_error]
  · intro pw
    rw [hash_reduce]
    simp only [_ensure_bytes, except_bind_ok]
  · intro pw h
    rw [hash_reduce]
    simp only [_ensure_bytes, except_bind_ok, hash_secret, h, except_bind_error]
  · intro pw out h
    rw [hash_reduce]
    simp only [_ensure_bytes, except_bind_ok, hash_secret, h]

/-- Witness for C7 at concrete inputs: text coercion, the urandom salt path
with a successful primitive, and a failing primitive surfacing
`HashingError`. -/
theorem hash_argument_assembly_witness :
    (PasswordHasher.hash ⟨RFC_9106_LOW_MEMORY, "utf-8"⟩ (fun _ s => Except.ok s)
        (fun _ _ _ _ _ _ _ => some (asciiOf "out")) (fun _ => List.replicate 16 0)
        (.str (asciiOf "pw")) none =
      PasswordHasher.hash ⟨RFC_9106_LOW_MEMORY, "utf-8"⟩ (fun _ s => Except.ok s)
        (fun _ _ _ _ _ _ _ => some (asciiOf "out")) (fun _ => List.replicate 16 0)
        (.bytes (asciiOf "pw")) none)
  ∧ (PasswordHasher.hash ⟨RFC_9106_LOW_MEMORY, "utf-8"⟩ (fun _ s => Except.ok s)
        (fun _ _ _ _ _ _ _ => some (asciiOf "out")) (fun _ => List.replicate 16 0)
        (.bytes (asciiOf "pw")) none = asciiDecode (asciiOf "out"))
  ∧ (PasswordHasher.hash ⟨RFC_9106_LOW_MEMORY, "utf-8"⟩ (fun _ s => Except.ok s)
        (fun _ _ _ _ _ _ _ => none) (fun _ => List.replicate 16 0)
        (.bytes (asciiOf "pw")) none = Except.error .hashingError) :=
  ⟨(hash_argument_assembly ⟨RFC_9106_LOW_MEMORY, "utf-8"⟩ (fun _ s => Except.ok s)
      (fun _ _ _ _ _ _ _ => some (asciiOf "out")) (fun _ => List.replicate 16 0)).1
      (asciiOf "pw") (asciiOf "pw") (by decide),
   (hash_argument_assembly ⟨RFC_9106_LOW_MEMORY, "utf-8"⟩ (fun _ s => Except.ok s)
      (fun _ _ _ _ _ _ _ => some (asciiOf "out")) (fun _ => List.replicate 16 0)).2.2.2.2
      (asciiOf "pw") (asciiOf "out") (by decide),
   (hash_argument_assembly ⟨RFC_9106_LOW_MEMORY, "utf-8"⟩ (fun _ s => Except.ok s)
      (fun _ _ _ _ _ _ _ => none) (fun _ => List.replicate 16 0)).2.2.2.1
      (asciiOf "pw") (by decide)⟩

instance (a : InitArgs) : Decidable a.welltyped := by
  unfold InitArgs.welltyped
  infer_instance

/-- C3: a constructor call in which some configuration argument has the wrong
Python class fails with the `InvalidParameterError` kind of the spec's
taxonomy — realized in the source as the builtin `TypeError` raised before any
parameters are built. -/
theorem init_wrong_type_invalid_parameter (env : SysEnv) (a : InitArgs)
    (h : ¬ a.welltyped) :
    ∃ e, PasswordHasher.init env a = Except.error e ∧ invalidParameterKind e := by
  obtain ⟨m, hm⟩ := init_wrong_typed env a h
  exact ⟨.typeError m, hm, ⟨m, rfl⟩⟩

/-- Witness for C3: a string passed as `time_cost` makes construction fail
with the wrong-typed-argument error kind. -/
theorem init_wrong_type_invalid_parameter_witness :
    ∃ e, PasswordHasher.init ⟨"linux", "x86_64"⟩
      { defaultInitArgs ⟨"linux", "x86_64"⟩ with time_cost := .str "3" } =
        Except.error e ∧ invalidParameterKind e :=
  init_wrong_type_invalid_parameter ⟨"linux", "x86_64"⟩
    { defaultInitArgs ⟨"linux", "x86_64"⟩ with time_cost := .str "3" } (by decide)

/-- C4: with every other argument left at its default, a parallelism of `p ≠ 1`
makes construction fail with `UnsupportedParamsError` in a WASM runtime, while
the same construction succeeds in a normal runtime; `p = 1` succeeds in both. -/
theorem init_wasm_parallelism_rule (env : SysEnv) (p : Int) :
    (is_wasm env = true → p ≠ 1 →
      PasswordHasher.init env { defaultInitArgs env with parallelism := .int p } =
        Except.error .unsupportedParams)
  ∧ (is_wasm env = true → p = 1 →
      PasswordHasher.init env { defaultInitArgs env with parallelism := .int p } =
        Except.ok ⟨builtParams p, "utf-8"⟩)
  ∧ (is_wasm env = false →
      PasswordHasher.init env { defaultInitArgs env with parallelism := .int p } =
        Except.ok ⟨builtParams p, "utf-8"⟩) := by
  have hred : PasswordHasher.init env { defaultInitArgs env with parallelism := .int p } =
      if is_wasm env ∧ p ≠ 1 then Except.error .unsupportedParams
      else Except.ok ⟨builtParams p, "utf-8"⟩ := rfl
  refine ⟨?_, ?_, ?_⟩
  · intro hw hp
    rw [hred, if_pos ⟨hw, hp⟩]
  · intro hw hp
    rw [hred, if_neg (by simp [hp])]
  · intro hw
    rw [hred, if_neg (by simp [hw])]

/-- Witness for C4: `parallelism=4` fails under `sys.platform == "emscripten"`
and succeeds under a normal platform; `parallelism=1` succeeds under WASM. -/
theorem init_wasm_parallelism_rule_witness :
    (PasswordHasher.init ⟨"emscripten", "x86_64"⟩
      { defaultInitArgs ⟨"emscripten", "x86_64"⟩ with parallelism := .int 4 } =
        Except.error .unsupportedParams)
  ∧ (PasswordHasher.init ⟨"emscripten", "x86_64"⟩
      { defaultInitArgs ⟨"emscripten", "x86_64"⟩ with parallelism := .int 1 } =
        Except.ok ⟨builtParams 1, "utf-8"⟩)
  ∧ (PasswordHasher.init ⟨"linux", "x86_64"⟩
      { defaultInitArgs ⟨"linux", "x86_64"⟩ with parallelism := .int 4 } =
        Except.ok ⟨builtParams 4, "utf-8"⟩) :=
  ⟨(init_wasm_parallelism_rule ⟨"emscripten", "x86_64"⟩ 4).1 (by decide) (by decide),
   (init_wasm_parallelism_rule ⟨"emscripten", "x86_64"⟩ 1).2.1 (by decide) rfl,
   (init_wasm_parallelism_rule ⟨"linux", "x86_64"⟩ 4).2.2 (by decide)⟩

/-- C5: `from_parameters` re-checks the platform parallelism rule — failing
with `UnsupportedParamsError` exactly when the runtime is WASM and the reused
parallelism is not 1 — and otherwise returns a hasher holding exactly the given
`Parameters`, with no type validation of its fields. -/
theorem from_parameters_recheck_and_reuse (env : SysEnv) (P : Parameters) :
    (is_wasm env = true → P.parallelism ≠ 1 →
      PasswordHasher.from_parameters env P = Except.error .unsupportedParams)
  ∧ (¬(is_wasm env = true ∧ P.parallelism ≠ 1) →
      PasswordHasher.from_parameters env P = Except.ok ⟨P, "utf-8"⟩) := by
  have hred : PasswordHasher.init env (defaultInitArgs env) =
      if is_wasm env ∧ DEFAULT_PARALLELISM env ≠ 1 then Except.error .unsupportedParams
      else Except.ok ⟨builtParams (DEFAULT_PARALLELISM env), "utf-8"⟩ := rfl
  constructor
  · intro hw hp
    unfold PasswordHasher.from_parameters
    rw [if_pos ⟨hw, hp⟩]
  · intro hn
    unfold PasswordHasher.from_parameters
    rw [if_neg hn, hred]
    cases hw : is_wasm env with
    | true =>
      have h1 : DEFAULT_PARALLELISM env = 1 := by simp [DEFAULT_PARALLELISM, hw]
      rw [h1, if_neg (by simp)]
      rfl
    | false =>
      rw [if_neg (by simp [hw])]
      rfl

/-- Witness for C5: reusing the RFC low-memory parameters (parallelism 4)
fails under WASM and succeeds, holding exactly those parameters, on a normal
platform; parallelism 1 passes the re-check even under WASM. -/
theorem from_parameters_recheck_and_reuse_witness :
    (PasswordHasher.from_parameters ⟨"emscripten", "x86_64"⟩ RFC_9106_LOW_MEMORY =
      Except.error .unsupportedParams)
  ∧ (PasswordHasher.from_parameters ⟨"linux", "x86_64"⟩ RFC_9106_LOW_MEMORY =
      Except.ok ⟨RFC_9106_LOW_MEMORY, "utf-8"⟩)
  ∧ (PasswordHasher.from_parameters ⟨"emscripten", "x86_64"⟩ (builtParams 1) =
      Except.ok ⟨builtParams 1, "utf-8"⟩) :=
  ⟨(from_parameters_recheck_and_reuse ⟨"emscripten", "x86_64"⟩ RFC_9106_LOW_MEMORY).1
      (by decide) (by decide),
   (from_parameters_recheck_and_reuse ⟨"linux", "x86_64"⟩ RFC_9106_LOW_MEMORY).2
      (by decide),
   (from_parameters_recheck_and_reuse ⟨"emscripten", "x86_64"⟩ (builtParams 1)).2
      (by decide)⟩

/-- C10: every hasher produced by `from_parameters` carries the default text
encoding `"utf-8"` — the alternate constructor takes no encoding argument and
inherits none. -/
theorem from_parameters_default_encoding (env : SysEnv) (P : Parameters)
    (ph : PasswordHasher)
    (h : PasswordHasher.from_parameters env P = Except.ok ph) :
    ph.encoding = "utf-8" := by
  unfold PasswordHasher.from_parameters at h
  by_cases hc : is_wasm env ∧ P.parallelism ≠ 1
  · rw [if_pos hc] at h
    exact absurd h (by simp)
  · rw [if_neg hc] at h
    have hred : PasswordHasher.init env (defaultInitArgs env) =
        if is_wasm env ∧ DEFAULT_PARALLELISM env ≠ 1 then Except.error .unsupportedParams
        else Except.ok ⟨builtParams (DEFAULT_PARALLELISM env), "utf-8"⟩ := rfl
    rw [hred] at h
    by_cases hc2 : is_wasm env ∧ DEFAULT_PARALLELISM env ≠ 1
    · rw [if_pos hc2] at h
      exact absurd h (by simp [Except.map])
    · rw [if_neg hc2] at h
      simp only [Except.map] at h
      rw [← Except.ok.inj h]

/-- Witness for C10: a concrete `from_parameters` call returns a hasher whose
encoding is `"utf-8"`. -/
theorem from_parameters_default_encoding_witness :
    PasswordHasher.encoding ⟨RFC_9106_LOW_MEMORY, "utf-8"⟩ = "utf-8" :=
  from_parameters_default_encoding ⟨"linux", "x86_64"⟩ RFC_9106_LOW_MEMORY
    ⟨RFC_9106_LOW_MEMORY, "utf-8"⟩ (by decide)

/-- C1: `check_needs_rehash` decodes the stored hash's parameters and compares
them to the instance's `Parameters` by full-field inequality: for any decodable
hash it returns exactly `decide (own ≠ decoded)`; a hash in the standard
encoding produced with the instance's own parameters yields `false`, and the
same stored hash checked by a hasher whose parameters differ in any way yields
`true`. -/
theorem check_needs_rehash_full_field (ph ph' : PasswordHasher) (s : Bytes)
    (q : Parameters) (salt raw : Bytes) :
    (extract_parameters s = Except.ok q →
      ph.check_needs_rehash (.str s) = Except.ok (decide (ph._parameters ≠ q)))
  ∧ (0 ≤ ph._parameters.version → 0 ≤ ph._parameters.time_cost →
     0 ≤ ph._parameters.memory_cost → 0 ≤ ph._parameters.parallelism →
     (∀ b ∈ salt, b < 256) → (∀ b ∈ raw, b < 256) →
     (salt.length : Int) = ph._parameters.salt_len →
     (raw.length : Int) = ph._parameters.hash_len →
     ph.check_needs_rehash (.str (encodeHash ph._parameters salt raw)) =
        Except.ok false
     ∧ (ph'._parameters ≠ ph._parameters →
        ph'.check_needs_rehash (.str (encodeHash ph._parameters salt raw)) =
          Except.ok true)) := by
  constructor
  · intro hq
    exact check_needs_rehash_str_ok ph s q hq
  · intro hv ht hm hp hs hr hsl hhl
    have h0 := extract_parameters_encodeHash ph._parameters salt raw hv ht hm hp hs hr
    rw [hsl, hhl] at h0
    have hdec : extract_parameters (encodeHash ph._parameters salt raw) =
        Except.ok ph._parameters := h0
    constructor
    · rw [check_needs_rehash_str_ok ph _ _ hdec]
      simp
    · intro hne
      rw [check_needs_rehash_str_ok ph' _ _ hdec]
      simp [hne]

/-- Witness for C1: a hash encoded with the RFC low-memory parameters needs no
rehash under those parameters, and needs one under a hasher whose `time_cost`
was raised by one. -/
theorem check_needs_rehash_full_field_witness :
    (PasswordHasher.check_needs_rehash ⟨RFC_9106_LOW_MEMORY, "utf-8"⟩
      (.str (encodeHash RFC_9106_LOW_MEMORY (List.replicate 16 0)
        (List.replicate 32 0))) = Except.ok false)
  ∧ (PasswordHasher.check_needs_rehash
      ⟨{ RFC_9106_LOW_MEMORY with time_cost := 4 }, "utf-8"⟩
      (.str (encodeHash RFC_9106_LOW_MEMORY (List.replicate 16 0)
        (List.replicate 32 0))) = Except.ok true) := by
  have h := (check_needs_rehash_full_field ⟨RFC_9106_LOW_MEMORY, "utf-8"⟩
    ⟨{ RFC_9106_LOW_MEMORY with time_cost := 4 }, "utf-8"⟩ [] RFC_9106_LOW_MEMORY
    (List.replicate 16 0) (List.replicate 32 0)).2 (by decide) (by decide)
    (by decide) (by decide) (by decide) (by decide) (by decide) (by decide)
  exact ⟨h.1, h.2 (by decide)⟩

/-- C6 counterexample: `"$argon2id$v=19$m=8,t=1,p=1"` is malformed (it is
missing segments, so the codec and `check_needs_rehash` reject it with
`InvalidHashError`), yet its first nine bytes are the recognized `$argon2id`
token, so `verify` forwards it to the primitive instead of raising
`InvalidHashError`; with a primitive behaving as the spec allows (failing with
`VerificationError`), `verify` raises `VerificationError`, an exception of a
different type.  So not every malformed input makes `verify` raise
`InvalidHashError`. -/
theorem malformed_recognized_header_cex :
    (extract_parameters (asciiOf "$argon2id$v=19$m=8,t=1,p=1") =
      Except.error .invalidHash)
  ∧ (PasswordHasher.check_needs_rehash ⟨RFC_9106_LOW_MEMORY, "utf-8"⟩
      (.str (asciiOf "$argon2id$v=19$m=8,t=1,p=1")) = Except.error .invalidHash)
  ∧ VsSpec (fun _ _ _ => some .verificationError)
  ∧ (PasswordHasher.verify ⟨RFC_9106_LOW_MEMORY, "utf-8"⟩ (fun _ s => Except.ok s)
      (fun _ _ _ => some .verificationError)
      (.bytes (asciiOf "$argon2id$v=19$m=8,t=1,p=1")) (.bytes []) =
      Except.error .verificationError)
  ∧ (PyError.verificationError ≠ PyError.invalidHash) := by
  refine ⟨by decide, by decide, ?_, by decide, by decide⟩
  intro h s t e he
  exact Or.inr (Option.some.inj he).symm

/-- C6 (amended): for ASCII inputs, `check_needs_rehash` fails only with
`InvalidHashError` and does fail so on an unrecognized header, a truncated
string and a string missing a segment; `verify` fails with `InvalidHashError`
exactly when the first nine bytes are not a recognized variant token, and on a
recognized token any failure it reports is the primitive's own
`VerifyMismatchError` or `VerificationError`, never an unrelated kind. -/
theorem malformed_hash_error_kinds (ph : PasswordHasher) (enc : EncOracle)
    (vs : Bytes → Bytes → ArgonType → Option PyError) (s h pw : Bytes) :
    (∀ e, ph.check_needs_rehash (.str s) = Except.error e → e = PyError.invalidHash)
  ∧ (ph.check_needs_rehash (.str (asciiOf "$bcrypt$v=2$x$y$z")) =
      Except.error .invalidHash)
  ∧ (ph.check_needs_rehash (.str (asciiOf "$argon2id$v=19$m=65")) =
      Except.error .invalidHash)
  ∧ (ph.check_needs_rehash
      (.str (asciiOf "$argon2id$v=19$m=65536,t=3,p=4$QUFBQQ")) =
      Except.error .invalidHash)
  ∧ (dictLookup _header_to_type (h.take 9) = none →
      ph.verify enc vs (.bytes h) (.bytes pw) = Except.error .invalidHash)
  ∧ (VsSpec vs → ∀ ty e, dictLookup _header_to_type (h.take 9) = some ty →
      ph.verify enc vs (.bytes h) (.bytes pw) = Except.error e →
      e = PyError.verifyMismatch ∨ e = PyError.verificationError) := by
  refine ⟨?_, ?_, ?_, ?_, ?_, ?_⟩
  · intro e he
    cases hq : extract_parameters s with
    | ok q =>
      rw [check_needs_rehash_str_ok ph s q hq] at he
      exact absurd he (by simp)
    | error e' =>
      rw [check_needs_rehash_str_error ph s e' hq] at he
      rw [← Except.error.inj he]
      exact extract_parameters_error_invalidHash s e' hq
  · exact check_needs_rehash_str_error ph _ _ (by decide)
  · exact check_needs_rehash_str_error ph _ _ (by decide)
  · exact check_needs_rehash_str_error ph _ _ (by decide)
  · intro hl
    exact verify_bytes_header_miss ph enc vs h pw hl
  · intro hvs ty e hl hv
    rw [verify_bytes_header_hit ph enc vs h pw ty hl] at hv
    unfold verify_secret at hv
    cases hvv : vs h pw ty with
    | none =>
      rw [hvv] at hv
      exact absurd hv (by simp)
    | some e' =>
      rw [hvv] at hv
      rw [← Except.error.inj hv]
      exact hvs h pw ty e' hvv

/-- Witness for the amended C6 at concrete inputs: `check_needs_rehash` on a
one-character malformed string fails with `InvalidHashError`; `verify` on an
unrecognized header fails with `InvalidHashError`; `verify` on a recognized
header with a mismatching primitive reports one of the primitive's two error
kinds. -/
theorem malformed_hash_error_kinds_witness :
    (PyError.invalidHash = PyError.invalidHash)
  ∧ (PasswordHasher.verify ⟨RFC_9106_LOW_MEMORY, "utf-8"⟩ (fun _ s => Except.ok s)
      (fun _ _ _ => some .verifyMismatch) (.bytes (asciiOf "no header"))
      (.bytes []) = Except.error .invalidHash)
  ∧ (PyError.verifyMismatch = PyError.verifyMismatch ∨
      PyError.verifyMismatch = PyError.verificationError) := by
  refine ⟨?_, ?_, ?_⟩
  · exact (malformed_hash_error_kinds ⟨RFC_9106_LOW_MEMORY, "utf-8"⟩
      (fun _ s => Except.ok s) (fun _ _ _ => some .verifyMismatch)
      (asciiOf "$") [] []).1 .invalidHash (by decide)
  · exact (malformed_hash_error_kinds ⟨RFC_9106_LOW_MEMORY, "utf-8"⟩
      (fun _ s => Except.ok s) (fun _ _ _ => some .verifyMismatch)
      (asciiOf "$") (asciiOf "no header") []).2.2.2.2.1 (by decide)
  · exact (malformed_hash_error_kinds ⟨RFC_9106_LOW_MEMORY, "utf-8"⟩
      (fun _ s => Except.ok s) (fun _ _ _ => some .verifyMismatch)
      (asciiOf "$") (asciiOf "$argon2id$x") []).2.2.2.2.2
      (fun _ _ _ e he => Or.inl (Option.some.inj he).symm) .id .verifyMismatch
      (by decide) (by decide)
